import Mathlib

/-!
Verification of the subtitle-editor component (`VideoEditor.svelte`).

The JavaScript logic is shallowly embedded:
* JS numbers are modelled by `JsVal` — a rational together with the special
  values `NaN`, `Infinity`, `-Infinity`; the arithmetic and comparison
  operators follow the JS semantics for those values.
* JS strings are Lean `String`s; the string operations the component uses
  (`trim`, `split`, `includes`, `parseInt`) are modelled over the character
  list `String.data`.
* `undefined` fields (`caption.start` / `caption.end` may never be assigned)
  are modelled with `Option`.
* A thrown `TypeError` (calling a method of `undefined`) is modelled with
  `Except Unit`.
-/

/-- JS number: a rational, or one of the special values produced by
division by zero and failed parses. -/
inductive JsVal where
  | num (q : ℚ)
  | nan
  | inf
  | ninf
deriving DecidableEq

namespace JsVal

/-- JS `<=` comparison (`NaN` compares false with everything). -/
def jsLe : JsVal → JsVal → Bool
  | .nan, _ => false
  | _, .nan => false
  | .ninf, _ => true
  | _, .inf => true
  | .num a, .num b => decide (a ≤ b)
  | .inf, _ => false
  | _, .ninf => false

/-- JS `+`. -/
def jsAdd : JsVal → JsVal → JsVal
  | .nan, _ => .nan
  | _, .nan => .nan
  | .num a, .num b => .num (a + b)
  | .inf, .ninf => .nan
  | .ninf, .inf => .nan
  | .inf, _ => .inf
  | _, .inf => .inf
  | .ninf, _ => .ninf
  | _, .ninf => .ninf

/-- JS `-`. -/
def jsSub : JsVal → JsVal → JsVal
  | .nan, _ => .nan
  | _, .nan => .nan
  | .num a, .num b => .num (a - b)
  | .inf, .inf => .nan
  | .ninf, .ninf => .nan
  | .inf, _ => .inf
  | .ninf, _ => .ninf
  | .num _, .inf => .ninf
  | .num _, .ninf => .inf

/-- JS `*`. -/
def jsMul : JsVal → JsVal → JsVal
  | .nan, _ => .nan
  | _, .nan => .nan
  | .num a, .num b => .num (a * b)
  | .inf, .inf => .inf
  | .inf, .ninf => .ninf
  | .ninf, .inf => .ninf
  | .ninf, .ninf => .inf
  | .inf, .num b => if b = 0 then .nan else if 0 < b then .inf else .ninf
  | .num a, .inf => if a = 0 then .nan else if 0 < a then .inf else .ninf
  | .ninf, .num b => if b = 0 then .nan else if 0 < b then .ninf else .inf
  | .num a, .ninf => if a = 0 then .nan else if 0 < a then .ninf else .inf

/-- JS `/` (division by zero produces `NaN` or a signed infinity). -/
def jsDiv : JsVal → JsVal → JsVal
  | .nan, _ => .nan
  | _, .nan => .nan
  | .num a, .num b =>
      if b = 0 then (if a = 0 then .nan else if 0 < a then .inf else .ninf)
      else .num (a / b)
  | .num _, .inf => .num 0
  | .num _, .ninf => .num 0
  | .inf, .num b => if 0 ≤ b then .inf else .ninf
  | .ninf, .num b => if 0 ≤ b then .ninf else .inf
  | .inf, _ => .nan
  | .ninf, _ => .nan

/-- JS `Math.min` (`NaN` is absorbing). -/
def jsMin : JsVal → JsVal → JsVal
  | .nan, _ => .nan
  | _, .nan => .nan
  | a, b => if jsLe a b then a else b

/-- JS `Math.max` (`NaN` is absorbing). -/
def jsMax : JsVal → JsVal → JsVal
  | .nan, _ => .nan
  | _, .nan => .nan
  | a, b => if jsLe a b then b else a

@[simp] theorem jsLe_num (a b : ℚ) : jsLe (.num a) (.num b) = decide (a ≤ b) := rfl

@[simp] theorem jsAdd_num (a b : ℚ) : jsAdd (.num a) (.num b) = .num (a + b) := rfl

@[simp] theorem jsSub_num (a b : ℚ) : jsSub (.num a) (.num b) = .num (a - b) := rfl

@[simp] theorem jsMul_num (a b : ℚ) : jsMul (.num a) (.num b) = .num (a * b) := rfl

theorem jsDiv_num {b : ℚ} (a : ℚ) (hb : b ≠ 0) :
    jsDiv (.num a) (.num b) = .num (a / b) := by
  simp [jsDiv, hb]

@[simp] theorem jsDiv_zero_zero : jsDiv (.num 0) (.num 0) = .nan := by
  simp [jsDiv]

@[simp] theorem jsMin_num (a b : ℚ) : jsMin (.num a) (.num b) = .num (min a b) := by
  by_cases h : a ≤ b <;> simp [jsMin, jsLe, h, min_def]

@[simp] theorem jsMax_num (a b : ℚ) : jsMax (.num a) (.num b) = .num (max a b) := by
  by_cases h : a ≤ b <;> simp [jsMax, jsLe, h, max_def]

@[simp] theorem jsMul_nan_left (v : JsVal) : jsMul .nan v = .nan := by
  cases v <;> rfl

@[simp] theorem jsMul_nan_right (v : JsVal) : jsMul v .nan = .nan := by
  cases v <;> rfl

@[simp] theorem jsAdd_nan_right (v : JsVal) : jsAdd v .nan = .nan := by
  cases v <;> rfl

@[simp] theorem jsAdd_nan_left (v : JsVal) : jsAdd .nan v = .nan := by
  cases v <;> rfl

@[simp] theorem jsSub_nan_right (v : JsVal) : jsSub v .nan = .nan := by
  cases v <;> rfl

@[simp] theorem jsSub_nan_left (v : JsVal) : jsSub .nan v = .nan := by
  cases v <;> rfl

@[simp] theorem jsDiv_nan_right (v : JsVal) : jsDiv v .nan = .nan := by
  cases v <;> rfl

@[simp] theorem jsDiv_nan_left (v : JsVal) : jsDiv .nan v = .nan := by
  cases v <;> rfl

@[simp] theorem jsMin_nan_right (v : JsVal) : jsMin v .nan = .nan := by
  cases v <;> rfl

@[simp] theorem jsMax_nan_right (v : JsVal) : jsMax v .nan = .nan := by
  cases v <;> rfl

end JsVal

open JsVal

/-! ### String primitives used by the component -/

/-- The ASCII whitespace characters recognised by JS `trim` / `parseInt`. -/
def isWsJS (c : Char) : Bool :=
  c = ' ' || c = '\t' || c = '\n' || c = '\r' || c = '\x0b' || c = '\x0c'

/-- JS `String.prototype.trim` on a character list. -/
def trimList (l : List Char) : List Char :=
  ((l.dropWhile isWsJS).reverse.dropWhile isWsJS).reverse

/-- JS `String.prototype.trim`. -/
def jsTrim (s : String) : String := ⟨trimList s.data⟩

/-- JS `split` with a one-character separator: every occurrence splits,
adjacent separators produce empty pieces, `"".split(sep) = [""]`. -/
def splitCh (c : Char) : List Char → List (List Char)
  | [] => [[]]
  | x :: xs =>
      if x = c then [] :: splitCh c xs
      else
        match splitCh c xs with
        | [] => [[x]]
        | y :: ys => (x :: y) :: ys

/-- JS `split('-->')` on a character list. -/
def splitArrow : List Char → List (List Char)
  | '-' :: '-' :: '>' :: rest => [] :: splitArrow rest
  | x :: xs =>
      match splitArrow xs with
      | [] => [[x]]
      | y :: ys => (x :: y) :: ys
  | [] => [[]]

/-- JS `line.includes('-->')`. -/
def hasArrow : List Char → Bool
  | '-' :: '-' :: '>' :: _ => true
  | _ :: xs => hasArrow xs
  | [] => false

/-- JS `srtContent.split(/\r?\n/)`: split at every `'\n'`, then strip a
single `'\r'` left at the end of a piece by a CRLF line ending. -/
def splitLines (s : String) : List String :=
  (splitCh '\n' s.data).map fun l =>
    ⟨if l.getLast? = some '\r' then l.dropLast else l⟩

/-- Numeric value of a decimal digit string. -/
def digitsToNat (l : List Char) : ℕ :=
  l.foldl (fun a c => 10 * a + (c.toNat - '0'.toNat)) 0

/-- Digit-prefix part of JS `parseInt(·, 10)`. -/
def parseDigits (l : List Char) (neg : Bool) : JsVal :=
  let ds := l.takeWhile Char.isDigit
  if ds.isEmpty then .nan
  else .num ((if neg then -1 else 1) * (digitsToNat ds : ℚ))

/-- JS `parseInt(s, 10)`: skip leading whitespace, optional sign, then the
longest digit prefix; `NaN` when there is no digit. -/
def parseIntJS (l : List Char) : JsVal :=
  match l.dropWhile isWsJS with
  | [] => .nan
  | c :: rest =>
      if c = '-' then parseDigits rest true
      else if c = '+' then parseDigits rest false
      else parseDigits (c :: rest) false

/-! ### The component's data model and functions -/

/-- One subtitle cue as built by `parseSrt`.  `start`/`end` are `none` while
the fields have never been assigned (JS `undefined`). -/
structure Caption where
  id : ℕ
  start : Option JsVal := none
  end_ : Option JsVal := none
  text : String := ""
  active : Bool := false
deriving DecidableEq

/-- `srtTimeToSeconds(srtTime)`: destructure the first three `':'`-separated
fields (a `TypeError` — modelled as `Except.error` — is thrown when fewer
than three exist, because `secondsAndMillis` is then `undefined`), split the
last on `','`, and combine `parseInt` results arithmetically.  A missing
milliseconds field is `parseInt(undefined, 10) = NaN`. -/
def srtTimeToSeconds (srtTime : String) : Except Unit JsVal :=
  match splitCh ':' srtTime.data with
  | hours :: minutes :: secondsAndMillis :: _ =>
      match splitCh ',' secondsAndMillis with
      | seconds :: rest =>
          let millis : JsVal :=
            match rest with
            | m :: _ => parseIntJS m
            | [] => .nan
          .ok (jsAdd (jsAdd (jsAdd (jsMul (parseIntJS hours) (.num 3600))
                (jsMul (parseIntJS minutes) (.num 60)))
                (parseIntJS seconds))
                (jsDiv millis (.num 1000)))
      | [] => .error ()
  | _ => .error ()

/-- Loop state of `parseSrt`. -/
structure SrtState where
  parsedCaptions : List Caption
  currentCaption : Option Caption
  idCounter : ℕ
deriving DecidableEq

/-- One iteration of the `for (const line of lines)` loop in `parseSrt`. -/
def srtStep (st : SrtState) (line : String) : Except Unit SrtState :=
  if jsTrim line = "" then
    .ok (match st.currentCaption with
      | some c =>
          if jsTrim c.text ≠ "" then
            { st with parsedCaptions := st.parsedCaptions ++ [c], currentCaption := none }
          else { st with currentCaption := none }
      | none => { st with currentCaption := none })
  else
    match st.currentCaption with
    | none =>
        .ok { st with
              currentCaption := some { id := st.idCounter, text := "", active := false },
              idCounter := st.idCounter + 1 }
    | some c =>
        if hasArrow line.data then
          match (splitArrow line.data).map trimList with
          | s :: e :: _ =>
              match srtTimeToSeconds ⟨s⟩ with
              | .error er => .error er
              | .ok sv =>
                  match srtTimeToSeconds ⟨e⟩ with
                  | .error er => .error er
                  | .ok ev =>
                      let c' := { c with start := some sv, end_ := some ev }
                      .ok { st with currentCaption := some c' }
          | _ => .error ()
        else
          let c' := { c with text := c.text ++ (if c.text = "" then "" else "\n") ++ jsTrim line }
          .ok { st with currentCaption := some c' }

/-- The commit of the trailing block after the loop. -/
def parseSrtFinalize (st : SrtState) : List Caption :=
  match st.currentCaption with
  | some c => if jsTrim c.text ≠ "" then st.parsedCaptions ++ [c] else st.parsedCaptions
  | none => st.parsedCaptions

/-- `parseSrt` on an already-split line list. -/
def parseSrtLines (lines : List String) : Except Unit (List Caption) :=
  match lines.foldlM srtStep ⟨[], none, 1⟩ with
  | .ok st => .ok (parseSrtFinalize st)
  | .error er => .error er

/-- `parseSrt(srtContent)`. -/
def parseSrt (srtContent : String) : Except Unit (List Caption) :=
  parseSrtLines (splitLines srtContent)

/-- JS `currentTime >= c.start` (`false` when the field is `undefined`). -/
def jsGeO (t : JsVal) : Option JsVal → Bool
  | none => false
  | some v => jsLe v t

/-- JS `currentTime <= c.end` (`false` when the field is `undefined`). -/
def jsLeO (t : JsVal) : Option JsVal → Bool
  | none => false
  | some v => jsLe t v

/-- The caption-related part of `handleTimeUpdate`: recompute every
`active` flag and take the text of the first active caption (`find`),
falling back to the empty string. -/
def handleTimeUpdate (captions : List Caption) (currentTime : JsVal) :
    List Caption × String :=
  let updated := captions.map fun c =>
    { c with active := jsGeO currentTime c.start && jsLeO currentTime c.end_ }
  let subtitleText :=
    match updated.find? (fun c => c.active) with
    | some c => c.text
    | none => ""
  (updated, subtitleText)

/-! ### The overlay positioner -/

/-- A pair of JS numbers (point, offset or size). -/
structure JsPair where
  x : JsVal
  y : JsVal
deriving DecidableEq

/-- The module-level state touched by the pointer handlers. -/
structure EditorState where
  subtitlePosition : JsPair
  dragStart : JsPair
  isDragging : Bool
  isResizing : Bool
  subtitleSize : JsPair
deriving DecidableEq

/-- Initial values of the component's state variables. -/
def initialState : EditorState :=
  { subtitlePosition := ⟨.num 50, .num 15⟩
    dragStart := ⟨.num 0, .num 0⟩
    isDragging := false
    isResizing := false
    subtitleSize := ⟨.num 300, .num 60⟩ }

/-- `handleSubtitleMouseDown(e)`: set the mode flag for the event target and
capture `dragStart` as the pointer-to-anchor pixel offset. -/
def handleSubtitleMouseDown (st : EditorState)
    (clientX clientY parentW parentH : ℚ) (onResizeHandle : Bool) : EditorState :=
  let st1 :=
    if onResizeHandle then { st with isResizing := true }
    else { st with isDragging := true }
  { st1 with dragStart :=
      ⟨jsSub (.num clientX) (jsMul (jsDiv st.subtitlePosition.x (.num 100)) (.num parentW)),
       jsSub (.num clientY)
         (jsMul (jsDiv (jsSub (.num 100) st.subtitlePosition.y) (.num 100)) (.num parentH))⟩ }

/-- `handleMouseMove(e)`: no-op outside a session or without a container;
while dragging, convert the pointer to percentage space and clamp to
`[10, 90]`; while resizing only, nothing is updated. -/
def handleMouseMove (st : EditorState) (containerExists : Bool)
    (rectW rectH : ℚ) (clientX clientY : ℚ) : EditorState :=
  if !st.isDragging && !st.isResizing then st
  else if !containerExists then st
  else if st.isDragging then
    let x := jsMul (jsDiv (jsSub (.num clientX) st.dragStart.x) (.num rectW)) (.num 100)
    let y := jsSub (.num 100)
      (jsMul (jsDiv (jsSub (.num clientY) st.dragStart.y) (.num rectH)) (.num 100))
    { st with subtitlePosition :=
        ⟨jsMax (.num 10) (jsMin (.num 90) x), jsMax (.num 10) (jsMin (.num 90) y)⟩ }
  else st

/-- `handleMouseUp()`. -/
def handleMouseUp (st : EditorState) : EditorState :=
  { st with isDragging := false, isResizing := false }

/-- One raw pointer event as delivered to the handlers. -/
inductive PEvent where
  | down (clientX clientY parentW parentH : ℚ) (onResizeHandle : Bool)
  | move (containerExists : Bool) (rectW rectH : ℚ) (clientX clientY : ℚ)
  | up
deriving DecidableEq

/-- Dispatch one pointer event to the matching handler. -/
def stepEvent (st : EditorState) : PEvent → EditorState
  | .down cx cy pw ph onH => handleSubtitleMouseDown st cx cy pw ph onH
  | .move ce w h cx cy => handleMouseMove st ce w h cx cy
  | .up => handleMouseUp st

/-- Run a pointer-event sequence from the component's initial state. -/
def runEvents (evs : List PEvent) : EditorState :=
  evs.foldl stepEvent initialState

/-- A pointer-move event reports positive container dimensions; other
events are unconstrained. -/
def okEv : PEvent → Prop
  | .move _ w h _ _ => 0 < w ∧ 0 < h
  | _ => True

/-! ### General helper lemmas -/

theorem find?_congr {α : Type} {p q : α → Bool} :
    ∀ {l : List α}, (∀ a ∈ l, p a = q a) → l.find? p = l.find? q
  | [], _ => rfl
  | a :: l, h => by
      have ha := h a (List.mem_cons_self a l)
      by_cases hp : p a = true
      · rw [List.find?_cons_of_pos _ hp, List.find?_cons_of_pos _ (ha ▸ hp)]
      · rw [List.find?_cons_of_neg _ hp,
          List.find?_cons_of_neg _ (by rw [← ha]; exact hp),
          find?_congr (fun a ha => h a (List.mem_cons_of_mem _ ha))]

theorem dropWhile_head_false (p : Char → Bool) :
    ∀ (l : List Char) {x : Char} {xs : List Char}, l.dropWhile p = x :: xs → p x = false
  | [], _, _, h => by simp at h
  | a :: l, x, xs, h => by
      by_cases hp : p a = true
      · rw [List.dropWhile_cons, if_pos hp] at h
        exact dropWhile_head_false p l h
      · rw [List.dropWhile_cons, if_neg hp] at h
        cases h
        exact Bool.eq_false_iff.mpr hp

theorem dropWhile_idem (p : Char → Bool) (l : List Char) :
    (l.dropWhile p).dropWhile p = l.dropWhile p := by
  rcases h : l.dropWhile p with _ | ⟨x, xs⟩
  · rfl
  · rw [List.dropWhile_cons, if_neg]
    simp [dropWhile_head_false p l h]

theorem trimList_idem (l : List Char) : trimList (trimList l) = trimList l := by
  have h2 : (trimList l).reverse.dropWhile isWsJS = (trimList l).reverse := by
    unfold trimList
    rw [List.reverse_reverse]
    exact dropWhile_idem _ _
  have h1 : (trimList l).dropWhile isWsJS = trimList l := by
    rcases hb : (trimList l) with _ | ⟨z, zs⟩
    · rfl
    · rw [List.dropWhile_cons, if_neg]
      have hsuf : (trimList l).reverse <:+ (l.dropWhile isWsJS).reverse := by
        unfold trimList
        rw [List.reverse_reverse]
        exact List.dropWhile_suffix _
      obtain ⟨t, ht⟩ := hsuf
      have hpre : l.dropWhile isWsJS = trimList l ++ t.reverse := by
        have := congrArg List.reverse ht
        simpa using this.symm
      rw [hb] at hpre
      have : isWsJS z = false := dropWhile_head_false isWsJS l hpre
      simp [this]
  have e : trimList (trimList l) =
      (((trimList l).dropWhile isWsJS).reverse.dropWhile isWsJS).reverse := rfl
  rw [e, h1, h2, List.reverse_reverse]

theorem jsTrim_idem (s : String) : jsTrim (jsTrim s) = jsTrim s :=
  congrArg String.mk (trimList_idem s.data)

theorem splitCh_ne_nil (c : Char) : ∀ l : List Char, splitCh c l ≠ []
  | [] => by simp [splitCh]
  | x :: xs => by
      by_cases h : x = c
      · simp [splitCh, h]
      · have := splitCh_ne_nil c xs
        rcases hs : splitCh c xs with _ | ⟨y, ys⟩
        · exact absurd hs this
        · simp [splitCh, h, hs]

theorem splitCh_not_mem {c : Char} : ∀ {l : List Char}, c ∉ l → splitCh c l = [l]
  | [], _ => rfl
  | x :: xs, h => by
      have hx : ¬x = c := fun e => h (e ▸ List.mem_cons_self x xs)
      have ih := splitCh_not_mem (fun hc => h (List.mem_cons_of_mem _ hc))
      simp [splitCh, hx, ih]

theorem splitCh_append {c : Char} :
    ∀ {a : List Char} (b : List Char), c ∉ a → splitCh c (a ++ c :: b) = a :: splitCh c b
  | [], b, _ => by simp [splitCh]
  | x :: xs, b, h => by
      have hx : ¬x = c := fun e => h (e ▸ List.mem_cons_self x xs)
      have ih : splitCh c (xs ++ c :: b) = xs :: splitCh c b :=
        splitCh_append b (fun hc => h (List.mem_cons_of_mem _ hc))
      simp [splitCh, hx, ih]

theorem splitCh_length (c : Char) : ∀ l : List Char, (splitCh c l).length = l.count c + 1
  | [] => by simp [splitCh]
  | x :: xs => by
      by_cases h : x = c
      · have hbeq : (x == c) = true := by simp [h]
        simp only [splitCh, if_pos h, List.length_cons, splitCh_length c xs,
          List.count_cons, hbeq]
        simp
      · have ih := splitCh_length c xs
        rcases hs : splitCh c xs with _ | ⟨y, ys⟩
        · exact absurd hs (splitCh_ne_nil c xs)
        · rw [hs] at ih
          simp only [splitCh, if_neg h, hs, List.length_cons, List.count_cons]
          simp only [List.length_cons] at ih
          have hbeq : (x == c) = false := by simp [h]
          simp [hbeq, ih]

theorem ne_of_isDigit {c c₀ : Char} (h : c.isDigit = true) (h₀ : c₀.isDigit = false) :
    c ≠ c₀ := fun e => by rw [e, h₀] at h; cases h

theorem isWsJS_eq_false_of_isDigit {c : Char} (h : c.isDigit = true) : isWsJS c = false := by
  rcases hw : isWsJS c with _ | _
  · rfl
  · exfalso
    simp only [isWsJS, Bool.or_eq_true, decide_eq_true_eq] at hw
    rcases hw with ((((e | e) | e) | e) | e) | e <;> subst e <;> simp [Char.isDigit] at h

theorem parseIntJS_digits {ds : List Char} (hne : ds ≠ [])
    (hd : ∀ c ∈ ds, c.isDigit = true) : parseIntJS ds = .num (digitsToNat ds : ℚ) := by
  rcases ds with _ | ⟨d, ds'⟩
  · exact absurd rfl hne
  · have hdd := hd d (List.mem_cons_self d ds')
    have hws : isWsJS d = false := isWsJS_eq_false_of_isDigit hdd
    have hminus : ¬d = '-' := ne_of_isDigit hdd (by decide)
    have hplus : ¬d = '+' := ne_of_isDigit hdd (by decide)
    have htake : (d :: ds').takeWhile Char.isDigit = d :: ds' :=
      List.takeWhile_eq_self_iff.mpr hd
    simp only [parseIntJS, List.dropWhile_cons, hws, Bool.false_eq_true, if_false,
      if_neg hminus, if_neg hplus, parseDigits, htake]
    simp


/-! ### C1 — active-caption selection -/

/-- Spec-side activity test: inclusive-inclusive interval membership,
defined only on captions whose timing fields hold plain numbers. -/
def specActive (t : ℚ) (c : Caption) : Bool :=
  match c.start, c.end_ with
  | some (.num a), some (.num b) => decide (a ≤ t ∧ t ≤ b)
  | _, _ => false

/-- The caption pair used by the specification's boundary example. -/
def exampleCaptions : List Caption :=
  [{ id := 1, start := some (.num 0), end_ := some (.num 2), text := "A", active := false },
   { id := 2, start := some (.num 2), end_ := some (.num 4), text := "B", active := false }]

/-- C1: `handleTimeUpdate` marks each caption active exactly when
`start ≤ currentTime ≤ end` (inclusive at both ends, per caption), and the
visible subtitle text is the text of the first active caption in sequence
order, or `""` when none is active; on the example pair, time 2 shows `"A"`
(first match wins on the shared boundary) and time 5 shows `""`. -/
theorem handleTimeUpdate_first_active :
    (∀ (caps : List Caption) (t : ℚ),
        (∀ c ∈ caps, ∃ a b : ℚ, c.start = some (.num a) ∧ c.end_ = some (.num b)) →
        (handleTimeUpdate caps (.num t)).1 =
          caps.map (fun c => { c with active := specActive t c }) ∧
        (handleTimeUpdate caps (.num t)).2 =
          (match caps.find? (specActive t) with
           | some c => c.text
           | none => "")) ∧
    (handleTimeUpdate exampleCaptions (.num 2)).2 = "A" ∧
    (handleTimeUpdate exampleCaptions (.num 5)).2 = "" := by
  refine ⟨?_, by decide, by decide⟩
  intro caps t h
  have hflag : ∀ c ∈ caps,
      (jsGeO (.num t) c.start && jsLeO (.num t) c.end_) = specActive t c := by
    intro c hc
    obtain ⟨a, b, hs, he⟩ := h c hc
    by_cases h1 : a ≤ t <;> by_cases h2 : t ≤ b <;>
      simp [jsGeO, jsLeO, specActive, hs, he, h1, h2]
  constructor
  · exact List.map_congr_left fun c hc =>
      congrArg (fun b => { c with active := b }) (hflag c hc)
  · simp only [handleTimeUpdate]
    rw [List.find?_map]
    have hcomp : ((fun c : Caption => c.active) ∘ fun c : Caption =>
        { c with active := jsGeO (.num t) c.start && jsLeO (.num t) c.end_ }) =
        fun c : Caption => jsGeO (.num t) c.start && jsLeO (.num t) c.end_ := rfl
    rw [hcomp, find?_congr hflag]
    cases caps.find? (specActive t) <;> rfl

/-- Witness for C1: the universal part instantiated at the example captions
and currentTime 2. -/
theorem handleTimeUpdate_first_active_witness :
    (handleTimeUpdate exampleCaptions (.num 2)).1 =
        exampleCaptions.map (fun c => { c with active := specActive 2 c }) ∧
    (handleTimeUpdate exampleCaptions (.num 2)).2 =
        (match exampleCaptions.find? (specActive 2) with
         | some c => c.text
         | none => "") :=
  handleTimeUpdate_first_active.1 exampleCaptions 2 (by
    intro c hc
    simp only [exampleCaptions, List.mem_cons, List.not_mem_nil, or_false] at hc
    rcases hc with h | h <;> subst h
    · exact ⟨0, 2, rfl, rfl⟩
    · exact ⟨2, 4, rfl, rfl⟩)

/-! ### C2 — timecode conversion -/

/-- Helper: `srtTimeToSeconds` on any `H:M:S,m`-shaped input built from four
nonempty decimal-digit fields is the expected arithmetic combination. -/
theorem srtTimeToSeconds_digit_fields :
    ∀ H M S MS : List Char,
      H ≠ [] → M ≠ [] → S ≠ [] → MS ≠ [] →
      (∀ c ∈ H, c.isDigit = true) → (∀ c ∈ M, c.isDigit = true) →
      (∀ c ∈ S, c.isDigit = true) → (∀ c ∈ MS, c.isDigit = true) →
      srtTimeToSeconds ⟨H ++ ':' :: (M ++ ':' :: (S ++ ',' :: MS))⟩ =
        .ok (.num ((digitsToNat H : ℚ) * 3600 + (digitsToNat M : ℚ) * 60 +
          (digitsToNat S : ℚ) + (digitsToNat MS : ℚ) / 1000)) := by
  intro H M S MS hH hM hS hMS dH dM dS dMS
  have notMem : ∀ (c₀ : Char) (l : List Char), c₀.isDigit = false →
      (∀ c ∈ l, c.isDigit = true) → c₀ ∉ l := by
    intro c₀ l h₀ hl hc
    rw [hl c₀ hc] at h₀
    cases h₀
  have notH : ':' ∉ H := notMem ':' H (by decide) dH
  have notM : ':' ∉ M := notMem ':' M (by decide) dM
  have notS : ':' ∉ S := notMem ':' S (by decide) dS
  have notMS : ':' ∉ MS := notMem ':' MS (by decide) dMS
  have notS2 : ',' ∉ S := notMem ',' S (by decide) dS
  have notMS2 : ',' ∉ MS := notMem ',' MS (by decide) dMS
  have hrest : (':' : Char) ∉ S ++ ',' :: MS := by
    intro hc
    rcases List.mem_append.mp hc with hc | hc
    · exact notS hc
    · rcases List.mem_cons.mp hc with hc | hc
      · cases hc
      · exact notMS hc
  have h1 : splitCh ':' (H ++ ':' :: (M ++ ':' :: (S ++ ',' :: MS))) =
      [H, M, S ++ ',' :: MS] := by
    rw [splitCh_append _ notH, splitCh_append _ notM, splitCh_not_mem hrest]
  have h2 : splitCh ',' (S ++ ',' :: MS) = [S, MS] := by
    rw [splitCh_append _ notS2, splitCh_not_mem notMS2]
  simp only [srtTimeToSeconds, h1, h2]
  rw [parseIntJS_digits hH dH, parseIntJS_digits hM dM,
    parseIntJS_digits hS dS, parseIntJS_digits hMS dMS]
  rw [jsDiv_num _ (by norm_num : (1000 : ℚ) ≠ 0)]
  simp

/-- C2: on every input of the shape `H:M:S,m` (each field a nonempty decimal
numeral), `srtTimeToSeconds` returns
`hours*3600 + minutes*60 + seconds + milliseconds/1000` with no bounds
validation on field ranges, and `srtTimeToSeconds "00:01:02,500" = 62.5`. -/
theorem srtTimeToSeconds_shape :
    (∀ H M S MS : List Char,
        H ≠ [] → M ≠ [] → S ≠ [] → MS ≠ [] →
        (∀ c ∈ H, c.isDigit = true) → (∀ c ∈ M, c.isDigit = true) →
        (∀ c ∈ S, c.isDigit = true) → (∀ c ∈ MS, c.isDigit = true) →
        srtTimeToSeconds ⟨H ++ ':' :: (M ++ ':' :: (S ++ ',' :: MS))⟩ =
          .ok (.num ((digitsToNat H : ℚ) * 3600 + (digitsToNat M : ℚ) * 60 +
            (digitsToNat S : ℚ) + (digitsToNat MS : ℚ) / 1000))) ∧
    srtTimeToSeconds "00:01:02,500" = .ok (.num (125 / 2)) := by
  refine ⟨srtTimeToSeconds_digit_fields, ?_⟩
  have main := srtTimeToSeconds_digit_fields
  have hstr : ("00:01:02,500" : String) =
      ⟨['0','0'] ++ ':' :: (['0','1'] ++ ':' :: (['0','2'] ++ ',' :: ['5','0','0']))⟩ := rfl
  rw [hstr, main ['0','0'] ['0','1'] ['0','2'] ['5','0','0']
    (by decide) (by decide) (by decide) (by decide)
    (by decide) (by decide) (by decide) (by decide)]
  have e1 : digitsToNat ['0','0'] = 0 := rfl
  have e2 : digitsToNat ['0','1'] = 1 := rfl
  have e3 : digitsToNat ['0','2'] = 2 := rfl
  have e4 : digitsToNat ['5','0','0'] = 500 := rfl
  rw [e1, e2, e3, e4]
  norm_num

/-- Witness for C2: the shape theorem instantiated at `"00:99:02,500"`
(minutes field 99 > 59 — no bounds validation). -/
theorem srtTimeToSeconds_shape_witness :
    srtTimeToSeconds ⟨['0','0'] ++ ':' :: (['9','9'] ++ ':' :: (['0','2'] ++ ',' :: ['5','0','0']))⟩ =
      .ok (.num ((digitsToNat ['0','0'] : ℚ) * 3600 + (digitsToNat ['9','9'] : ℚ) * 60 +
        (digitsToNat ['0','2'] : ℚ) + (digitsToNat ['5','0','0'] : ℚ) / 1000)) :=
  srtTimeToSeconds_shape.1 ['0','0'] ['9','9'] ['0','2'] ['5','0','0']
    (by decide) (by decide) (by decide) (by decide)
    (by decide) (by decide) (by decide) (by decide)

/-! ### C6 — timecode error conditions -/

/-- C6 counterexample: `"00:01:02"` does not match the `H:M:S,m` shape (the
comma separator is missing), yet the converter does not fail — it returns
`NaN` instead of throwing. -/
theorem srtTimeToSeconds_missing_comma_no_error :
    srtTimeToSeconds "00:01:02" = .ok .nan ∧
    srtTimeToSeconds "00:01:02" ≠ .error () := by
  refine ⟨rfl, ?_⟩
  rw [show srtTimeToSeconds "00:01:02" = .ok .nan from rfl]
  simp

/-- C6 (amended): the converter throws exactly when the input has fewer than
two `':'` separators (so that the third colon-field is `undefined`); with
enough colons it never fails, even without a comma — and on every
`H:M:S,m`-shaped input it returns a plain number. -/
theorem srtTimeToSeconds_error_iff :
    (∀ s : String, srtTimeToSeconds s = .error () ↔ s.data.count ':' < 2) ∧
    (∀ H M S MS : List Char,
        H ≠ [] → M ≠ [] → S ≠ [] → MS ≠ [] →
        (∀ c ∈ H, c.isDigit = true) → (∀ c ∈ M, c.isDigit = true) →
        (∀ c ∈ S, c.isDigit = true) → (∀ c ∈ MS, c.isDigit = true) →
        ∃ q : ℚ, srtTimeToSeconds ⟨H ++ ':' :: (M ++ ':' :: (S ++ ',' :: MS))⟩ =
          .ok (.num q)) := by
  constructor
  · intro s
    have hlen := splitCh_length ':' s.data
    rcases hsp : splitCh ':' s.data with _ | ⟨a, rest⟩
    · exact absurd hsp (splitCh_ne_nil ':' s.data)
    rcases rest with _ | ⟨b, rest2⟩
    · have hcount : s.data.count ':' = 0 := by
        rw [hsp] at hlen
        simpa using hlen.symm
      simp [srtTimeToSeconds, hsp, hcount]
    rcases rest2 with _ | ⟨c, rest3⟩
    · have hcount : s.data.count ':' = 1 := by
        rw [hsp] at hlen
        simpa using hlen.symm
      simp [srtTimeToSeconds, hsp, hcount]
    · have hcount : 2 ≤ s.data.count ':' := by
        rw [hsp] at hlen
        simp only [List.length_cons] at hlen
        omega
      rcases hsm : splitCh ',' c with _ | ⟨s0, rest4⟩
      · exact absurd hsm (splitCh_ne_nil ',' c)
      · simp only [srtTimeToSeconds, hsp, hsm]
        constructor
        · intro h
          cases h
        · intro h
          omega
  · intro H M S MS hH hM hS hMS dH dM dS dMS
    exact ⟨_, srtTimeToSeconds_digit_fields H M S MS hH hM hS hMS dH dM dS dMS⟩

/-- Witness for C6: the amended theorem instantiated at `"ab"` (one colon
field, so it throws) and at the shaped input `"00:01:02,500"`. -/
theorem srtTimeToSeconds_error_iff_witness :
    (srtTimeToSeconds "ab" = .error () ↔ ("ab" : String).data.count ':' < 2) ∧
    ∃ q : ℚ, srtTimeToSeconds ⟨['0','0'] ++ ':' :: (['0','1'] ++ ':' :: (['0','2'] ++ ',' :: ['5','0','0']))⟩ =
      .ok (.num q) :=
  ⟨srtTimeToSeconds_error_iff.1 "ab",
   srtTimeToSeconds_error_iff.2 ['0','0'] ['0','1'] ['0','2'] ['5','0','0']
     (by decide) (by decide) (by decide) (by decide)
     (by decide) (by decide) (by decide) (by decide)⟩

/-! ### C4 — id assignment -/

/-- Loop invariant of `parseSrt`: committed ids are strictly increasing and
below the counter, and the open caption's id dominates all committed ones. -/
def SrtInv (st : SrtState) : Prop :=
  st.parsedCaptions.Pairwise (fun a b => a.id < b.id) ∧
  (∀ c ∈ st.parsedCaptions, 1 ≤ c.id ∧ c.id < st.idCounter) ∧
  (∀ c, st.currentCaption = some c →
      1 ≤ c.id ∧ c.id < st.idCounter ∧ ∀ c' ∈ st.parsedCaptions, c'.id < c.id) ∧
  1 ≤ st.idCounter

theorem srtStep_inv {st st' : SrtState} {line : String}
    (h : SrtInv st) (he : srtStep st line = .ok st') : SrtInv st' := by
  obtain ⟨parsed, cur, k⟩ := st
  obtain ⟨hp, hb, hc, hk⟩ := h
  unfold srtStep at he
  dsimp only at he hp hb hc hk
  by_cases hbl : jsTrim line = ""
  · rw [if_pos hbl] at he
    rcases cur with _ | c
    · cases he
      exact ⟨hp, hb, by simp, hk⟩
    · dsimp only at he
      by_cases ht : jsTrim c.text ≠ ""
      · rw [if_pos ht] at he
        cases he
        refine ⟨?_, ?_, by simp, hk⟩
        · exact List.pairwise_append.mpr
            ⟨hp, List.pairwise_singleton _ _,
             fun a ha b hb' => by
               rw [List.mem_singleton.mp hb']
               exact (hc c rfl).2.2 a ha⟩
        · intro x hx
          rcases List.mem_append.mp hx with hx | hx
          · exact hb x hx
          · rw [List.mem_singleton] at hx
            subst hx
            exact ⟨(hc x rfl).1, (hc x rfl).2.1⟩
      · rw [if_neg ht] at he
        cases he
        exact ⟨hp, hb, by simp, hk⟩
  · rw [if_neg hbl] at he
    rcases cur with _ | c
    · cases he
      refine ⟨hp, ?_, ?_, Nat.le_succ_of_le hk⟩
      · intro x hx
        exact ⟨(hb x hx).1, Nat.lt_succ_of_lt (hb x hx).2⟩
      · intro x hx
        cases hx
        exact ⟨hk, Nat.lt_succ_self k, fun c' hc' => (hb c' hc').2⟩
    · dsimp only at he
      by_cases har : hasArrow line.data
      · rw [if_pos har] at he
        rcases hsp : (splitArrow line.data).map trimList with _ | ⟨s0, rest⟩ <;>
          rw [hsp] at he
        · cases he
        rcases rest with _ | ⟨e0, rest2⟩
        · cases he
        · dsimp only at he
          rcases h1 : srtTimeToSeconds ⟨s0⟩ with er | v1 <;> rw [h1] at he
          · cases he
          rcases h2 : srtTimeToSeconds ⟨e0⟩ with er | v2 <;> rw [h2] at he
          · cases he
          cases he
          refine ⟨hp, hb, ?_, hk⟩
          intro x hx
          cases hx
          exact ⟨(hc c rfl).1, (hc c rfl).2.1, (hc c rfl).2.2⟩
      · rw [if_neg har] at he
        cases he
        refine ⟨hp, hb, ?_, hk⟩
        intro x hx
        cases hx
        exact ⟨(hc c rfl).1, (hc c rfl).2.1, (hc c rfl).2.2⟩

theorem foldlM_srtStep_inv :
    ∀ (lines : List String) (st st' : SrtState), SrtInv st →
      lines.foldlM srtStep st = .ok st' → SrtInv st'
  | [], st, st', h, he => by
      simp only [List.foldlM_nil] at he
      cases he
      exact h
  | l :: ls, st, st', h, he => by
      rw [List.foldlM_cons] at he
      rcases hs : srtStep st l with er | st1 <;> rw [hs] at he
      · cases he
      · exact foldlM_srtStep_inv ls st1 st' (srtStep_inv h hs) he

theorem parseSrtFinalize_inv {st : SrtState} (h : SrtInv st) :
    (parseSrtFinalize st).Pairwise (fun a b => a.id < b.id) ∧
    ∀ c ∈ parseSrtFinalize st, 1 ≤ c.id := by
  obtain ⟨parsed, cur, k⟩ := st
  obtain ⟨hp, hb, hc, hk⟩ := h
  unfold parseSrtFinalize
  dsimp only at hp hb hc hk ⊢
  rcases cur with _ | c
  · exact ⟨hp, fun c hx => (hb c hx).1⟩
  · dsimp only
    by_cases ht : jsTrim c.text ≠ ""
    · rw [if_pos ht]
      refine ⟨?_, ?_⟩
      · exact List.pairwise_append.mpr
          ⟨hp, List.pairwise_singleton _ _,
           fun a ha b hb' => by
             rw [List.mem_singleton.mp hb']
             exact (hc c rfl).2.2 a ha⟩
      · intro x hx
        rcases List.mem_append.mp hx with hx | hx
        · exact (hb x hx).1
        · rw [List.mem_singleton] at hx
          subst hx
          exact (hc x rfl).1
    · rw [if_neg ht]
      exact ⟨hp, fun c hx => (hb c hx).1⟩

/-- C4 counterexample: in `"x\n\ny\nz"` the first block is dropped (empty
text) but its id 1 is already consumed at block start, so the single
committed caption has id 2, not 1. -/
theorem parseSrt_dropped_block_id_gap :
    Except.map (List.map Caption.id) (parseSrt "x\n\ny\nz") = .ok [2] ∧
    Except.map (List.map Caption.id) (parseSrt "x\n\ny\nz") ≠ .ok [1] := by
  refine ⟨rfl, ?_⟩
  rw [show Except.map (List.map Caption.id) (parseSrt "x\n\ny\nz") =
    (.ok [2] : Except Unit (List ℕ)) from rfl]
  simp

/-- C4 (amended): ids are assigned sequentially from 1 at block start, so
the ids of the committed captions are strictly increasing and at least 1 —
but an empty-text block consumes an id when it is dropped, so the committed
ids may have gaps and need not be `1, …, n`. -/
theorem parseSrt_ids_strictly_increasing :
    ∀ (s : String) (caps : List Caption), parseSrt s = .ok caps →
      (caps.map Caption.id).Pairwise (· < ·) ∧ ∀ c ∈ caps, 1 ≤ c.id := by
  intro s caps h
  unfold parseSrt parseSrtLines at h
  rcases hf : (splitLines s).foldlM srtStep ⟨[], none, 1⟩ with er | st <;> rw [hf] at h
  · cases h
  · have hinit : SrtInv ⟨[], none, 1⟩ := by
      refine ⟨List.Pairwise.nil, by simp, by simp, le_refl 1⟩
    have hinv := foldlM_srtStep_inv (splitLines s) _ st hinit hf
    cases h
    obtain ⟨h1, h2⟩ := parseSrtFinalize_inv hinv
    exact ⟨List.pairwise_map.mpr h1, h2⟩

/-- Witness for C4 (amended) at the two-line input `"1\nHello"`. -/
theorem parseSrt_ids_strictly_increasing_witness :
    ((([{ id := 1, start := none, end_ := none, text := "Hello", active := false }] :
        List Caption).map Caption.id).Pairwise (· < ·)) ∧
    ∀ c ∈ ([{ id := 1, start := none, end_ := none, text := "Hello", active := false }] :
        List Caption), 1 ≤ c.id :=
  parseSrt_ids_strictly_increasing "1\nHello"
    [{ id := 1, start := none, end_ := none, text := "Hello", active := false }] rfl

/-! ### C5 and C10 — block structure -/

/-- The text accumulated by appending the trimmed lines `ls` to `t` with
the parser's separator rule. -/
def appendLines (t : String) (ls : List String) : String :=
  ls.foldl (fun acc l => acc ++ (if acc = "" then "" else "\n") ++ jsTrim l) t

theorem srtStep_start_block (parsed : List Caption) (k : ℕ) {l : String}
    (h : jsTrim l ≠ "") :
    srtStep ⟨parsed, none, k⟩ l =
      .ok ⟨parsed, some { id := k, start := none, end_ := none, text := "", active := false }, k + 1⟩ := by
  unfold srtStep
  rw [if_neg h]

theorem srtStep_text_line (parsed : List Caption) (k : ℕ) (c : Caption) {l : String}
    (h1 : jsTrim l ≠ "") (h2 : hasArrow l.data = false) :
    srtStep ⟨parsed, some c, k⟩ l =
      .ok ⟨parsed, some { c with text := c.text ++ (if c.text = "" then "" else "\n") ++ jsTrim l }, k⟩ := by
  unfold srtStep
  rw [if_neg h1]
  dsimp only
  rw [if_neg (by simp [h2])]

theorem foldlM_text_lines :
    ∀ (ls : List String) (c : Caption) (parsed : List Caption) (k : ℕ),
      (∀ l ∈ ls, jsTrim l ≠ "" ∧ hasArrow l.data = false) →
      List.foldlM srtStep (⟨parsed, some c, k⟩ : SrtState) ls =
        .ok ⟨parsed, some { c with text := appendLines c.text ls }, k⟩
  | [], c, parsed, k, _ => by
      simp only [List.foldlM_nil, appendLines, List.foldl_nil]
      rfl
  | l :: ls, c, parsed, k, h => by
      rw [List.foldlM_cons]
      have hl := h l (List.mem_cons_self l ls)
      rw [srtStep_text_line parsed k c hl.1 hl.2]
      exact foldlM_text_lines ls _ parsed k
        (fun l' hl' => h l' (List.mem_cons_of_mem _ hl'))

/-- C5 counterexample: on the block whose first line is the timecode line
itself (no index line), the committed caption has `start = end = undefined`
and is not given the converted timecodes — the first non-blank line was
swallowed as the index line.  (For reference, the timecode the claim
expects is `srtTimeToSeconds "00:00:01,000" = 1`.) -/
theorem parseSrt_timecode_first_line_discarded :
    parseSrt "00:00:01,000 --> 00:00:02,000\nHello" =
      .ok [{ id := 1, start := none, end_ := none, text := "Hello", active := false }] ∧
    srtTimeToSeconds "00:00:01,000" = .ok (.num 1) := by
  constructor
  · rfl
  · have h := srtTimeToSeconds_digit_fields ['0','0'] ['0','0'] ['0','1'] ['0','0','0']
      (by decide) (by decide) (by decide) (by decide)
      (by decide) (by decide) (by decide) (by decide)
    rw [show ("00:00:01,000" : String) =
      ⟨['0','0'] ++ ':' :: (['0','0'] ++ ':' :: (['0','1'] ++ ',' :: ['0','0','0']))⟩ from rfl, h]
    have e1 : digitsToNat ['0','0'] = 0 := rfl
    have e2 : digitsToNat ['0','1'] = 1 := rfl
    have e3 : digitsToNat ['0','0','0'] = 0 := rfl
    rw [e1, e2, e3]
    norm_num

/-- C5 (amended): the index slot is not optional — the first non-blank line
of a block is always consumed and discarded as the index line, even when it
is the `TIMECODE --> TIMECODE` line; a two-line block committed this way has
unassigned (`undefined`) start/end and the second line's trimmed content as
its text. -/
theorem parseSrtLines_first_line_always_index :
    ∀ l₁ l₂ : String, jsTrim l₁ ≠ "" → jsTrim l₂ ≠ "" → hasArrow l₂.data = false →
      parseSrtLines [l₁, l₂] =
        .ok [{ id := 1, start := none, end_ := none, text := jsTrim l₂,
               active := false }] := by
  intro l₁ l₂ h1 h2 h3
  have hfold : List.foldlM srtStep (⟨[], none, 1⟩ : SrtState) [l₁, l₂] =
      .ok ⟨[], some { id := 1, start := none, end_ := none, text := jsTrim l₂, active := false }, 2⟩ := by
    rw [List.foldlM_cons, srtStep_start_block [] 1 h1]
    show List.foldlM srtStep _ [l₂] = _
    rw [List.foldlM_cons, srtStep_text_line [] 2 _ h2 h3]
    rfl
  unfold parseSrtLines
  rw [hfold]
  dsimp only
  unfold parseSrtFinalize
  dsimp only
  rw [if_pos (by rw [jsTrim_idem]; exact h2)]
  rfl

/-- Witness for C5 (amended), instantiated at the very block of the
counterexample: the timecode-looking first line is discarded. -/
theorem parseSrtLines_first_line_always_index_witness :
    parseSrtLines ["00:00:01,000 --> 00:00:02,000", "Hello"] =
      .ok [{ id := 1, start := none, end_ := none, text := jsTrim "Hello",
             active := false }] :=
  parseSrtLines_first_line_always_index "00:00:01,000 --> 00:00:02,000" "Hello"
    (by decide) (by decide) (by decide)

theorem parseSrtLines_no_arrow_block :
    ∀ (l₀ : String) (rest : List String),
      jsTrim l₀ ≠ "" → (∀ l ∈ rest, jsTrim l ≠ "" ∧ hasArrow l.data = false) →
      jsTrim (appendLines "" rest) ≠ "" →
      parseSrtLines (l₀ :: rest) =
        .ok [{ id := 1, start := none, end_ := none, text := appendLines "" rest, active := false }] := by
  intro l₀ rest h0 hrest hne
  have hfold : List.foldlM srtStep (⟨[], none, 1⟩ : SrtState) (l₀ :: rest) =
      .ok ⟨[], some { id := 1, start := none, end_ := none, text := appendLines "" rest, active := false }, 2⟩ := by
    rw [List.foldlM_cons, srtStep_start_block [] 1 h0]
    exact foldlM_text_lines rest _ [] 2 hrest
  unfold parseSrtLines
  rw [hfold]
  dsimp only
  unfold parseSrtFinalize
  dsimp only
  rw [if_pos hne]
  rfl

/-- C10: a block with no `-->` line is still committed when its accumulated
text is non-empty, with `start`/`end` never assigned; a caption whose
`start` is unassigned always gets `active = false` from the time-update
handler, and the displayed text always originates from a caption with an
assigned `start` — so a caption without parsed timing is never displayed. -/
theorem parseSrt_no_timing_never_displayed :
    (∀ (l₀ : String) (rest : List String),
        jsTrim l₀ ≠ "" → (∀ l ∈ rest, jsTrim l ≠ "" ∧ hasArrow l.data = false) →
        jsTrim (appendLines "" rest) ≠ "" →
        parseSrtLines (l₀ :: rest) =
          .ok [{ id := 1, start := none, end_ := none, text := appendLines "" rest, active := false }]) ∧
    (∀ (caps : List Caption) (t : JsVal),
        ∀ c ∈ (handleTimeUpdate caps t).1, c.start = none → c.active = false) ∧
    (∀ (caps : List Caption) (t : JsVal),
        (handleTimeUpdate caps t).2 ≠ "" →
        ∃ c ∈ caps, c.start ≠ none ∧ (handleTimeUpdate caps t).2 = c.text ∧
          (jsGeO t c.start && jsLeO t c.end_) = true) := by
  refine ⟨parseSrtLines_no_arrow_block, ?_, ?_⟩
  · intro caps t c hc hst
    simp only [handleTimeUpdate, List.mem_map] at hc
    obtain ⟨c₀, _, rfl⟩ := hc
    have h0 : c₀.start = none := hst
    simp [h0, jsGeO]
  · intro caps t hne
    simp only [handleTimeUpdate] at hne ⊢
    rcases hf : (caps.map fun c =>
        { c with active := jsGeO t c.start && jsLeO t c.end_ }).find?
          (fun c => c.active) with _ | c'
    · rw [hf] at hne
      simp at hne
    · rw [hf] at hne ⊢
      have hmem := List.mem_of_find?_eq_some hf
      have hact := List.find?_some hf
      rw [List.mem_map] at hmem
      obtain ⟨c₀, hc₀, rfl⟩ := hmem
      refine ⟨c₀, hc₀, ?_, rfl, hact⟩
      intro h0
      rw [show (jsGeO t c₀.start && jsLeO t c₀.end_) = false by simp [h0, jsGeO]] at hact
      cases hact

/-- Witness for C10: the block `["1", "Hello"]` (no arrow line) commits a
timing-less caption; a timing-less caption is inactive at time 0; and the
visible text `"hi"` at time 0 comes from a caption with assigned timing. -/
theorem parseSrt_no_timing_never_displayed_witness :
    parseSrtLines ["1", "Hello"] =
      .ok [{ id := 1, start := none, end_ := none, text := appendLines "" ["Hello"], active := false }] ∧
    (∀ c ∈ (handleTimeUpdate [{ id := 1, start := none, end_ := none, text := "x", active := false }] .nan).1,
        c.start = none → c.active = false) ∧
    ∃ c ∈ ([{ id := 1, start := some (.num 0), end_ := some (.num 1), text := "hi", active := false }] : List Caption),
      c.start ≠ none ∧
      (handleTimeUpdate [{ id := 1, start := some (.num 0), end_ := some (.num 1), text := "hi", active := false }] (.num 0)).2 = c.text ∧
      (jsGeO (.num 0) c.start && jsLeO (.num 0) c.end_) = true :=
  ⟨parseSrt_no_timing_never_displayed.1 "1" ["Hello"] (by decide) (by decide) (by decide),
   parseSrt_no_timing_never_displayed.2.1
     [{ id := 1, start := none, end_ := none, text := "x", active := false }] .nan,
   parseSrt_no_timing_never_displayed.2.2
     [{ id := 1, start := some (.num 0), end_ := some (.num 1), text := "hi", active := false }]
     (.num 0) (by decide)⟩

/-! ### C3 — drag geometry and clamping -/

/-- Both anchor coordinates are plain numbers inside the `[10, 90]` clamp
range (the initial `(50, 15)` qualifies). -/
def InRangePos (p : JsPair) : Prop :=
  (∃ a : ℚ, p.x = .num a ∧ 10 ≤ a ∧ a ≤ 90) ∧
  (∃ b : ℚ, p.y = .num b ∧ 10 ≤ b ∧ b ≤ 90)

/-- Reachability invariant of the pointer state machine: the anchor is a
clamped number pair and the captured drag offset is a number pair. -/
def DragInv (st : EditorState) : Prop :=
  InRangePos st.subtitlePosition ∧
  (∃ dx : ℚ, st.dragStart.x = .num dx) ∧ (∃ dy : ℚ, st.dragStart.y = .num dy)

theorem handleMouseMove_drag_formula (st : EditorState) (w h cx cy dx dy : ℚ)
    (hd : st.isDragging = true) (hw : w ≠ 0) (hh : h ≠ 0)
    (hds : st.dragStart = ⟨.num dx, .num dy⟩) :
    handleMouseMove st true w h cx cy =
      { st with subtitlePosition :=
          ⟨.num (max 10 (min 90 ((cx - dx) / w * 100))),
           .num (max 10 (min 90 (100 - (cy - dy) / h * 100)))⟩ } := by
  obtain ⟨pos, ds, drag, res, size⟩ := st
  dsimp only at hd hds
  subst hd
  subst hds
  unfold handleMouseMove
  dsimp only
  simp only [jsSub_num]
  rw [jsDiv_num (cx - dx) hw, jsDiv_num (cy - dy) hh]
  simp only [jsMul_num, jsSub_num, jsMin_num, jsMax_num]
  simp

theorem handleMouseMove_not_dragging (st : EditorState) (ce : Bool) (w h cx cy : ℚ)
    (hd : st.isDragging = false) :
    handleMouseMove st ce w h cx cy = st := by
  obtain ⟨pos, ds, drag, res, size⟩ := st
  dsimp only at hd
  subst hd
  unfold handleMouseMove
  cases res <;> cases ce <;> rfl

theorem clamp_mem_range (q : ℚ) : 10 ≤ max 10 (min 90 q) ∧ max 10 (min 90 q) ≤ 90 :=
  ⟨le_max_left 10 _, max_le (by norm_num) (min_le_left 90 q)⟩

theorem stepEvent_drag_inv {st : EditorState} {ev : PEvent}
    (h : DragInv st) (hok : okEv ev) : DragInv (stepEvent st ev) := by
  obtain ⟨hpos, ⟨dx, hdx⟩, ⟨dy, hdy⟩⟩ := h
  cases ev with
  | down cx cy pw ph onH =>
      obtain ⟨⟨a, hxa, ha1, ha2⟩, ⟨b, hyb, hb1, hb2⟩⟩ := hpos
      have h100 : (100 : ℚ) ≠ 0 := by norm_num
      refine ⟨⟨⟨a, ?_, ha1, ha2⟩, ⟨b, ?_, hb1, hb2⟩⟩,
        ⟨cx - a / 100 * pw, ?_⟩, ⟨cy - (100 - b) / 100 * ph, ?_⟩⟩ <;>
        cases onH <;>
          simp [stepEvent, handleSubtitleMouseDown, hxa, hyb,
            jsDiv_num a h100, jsDiv_num (100 - b) h100]
  | move ce w h cx cy =>
      obtain ⟨hw, hh⟩ := hok
      rcases hd : st.isDragging with _ | _
      · rw [show stepEvent st (.move ce w h cx cy) =
          handleMouseMove st ce w h cx cy from rfl,
          handleMouseMove_not_dragging st ce w h cx cy hd]
        exact ⟨hpos, ⟨dx, hdx⟩, ⟨dy, hdy⟩⟩
      · rcases hce : ce with _ | _
        · rw [show stepEvent st (.move false w h cx cy) =
            handleMouseMove st false w h cx cy from rfl]
          have : handleMouseMove st false w h cx cy = st := by
            obtain ⟨pos, ds, drag, res, size⟩ := st
            dsimp only at hd
            subst hd
            unfold handleMouseMove
            cases res <;> rfl
          rw [this]
          exact ⟨hpos, ⟨dx, hdx⟩, ⟨dy, hdy⟩⟩
        · have hds : st.dragStart = ⟨.num dx, .num dy⟩ := by
            obtain ⟨pos, ds, drag, res, size⟩ := st
            obtain ⟨x, y⟩ := ds
            dsimp only at hdx hdy
            rw [hdx, hdy]
          rw [show stepEvent st (.move true w h cx cy) =
            handleMouseMove st true w h cx cy from rfl,
            handleMouseMove_drag_formula st w h cx cy dx dy hd hw.ne' hh.ne' hds]
          refine ⟨⟨⟨_, rfl, (clamp_mem_range _).1, (clamp_mem_range _).2⟩,
            ⟨_, rfl, (clamp_mem_range _).1, (clamp_mem_range _).2⟩⟩,
            ⟨dx, ?_⟩, ⟨dy, ?_⟩⟩ <;> simp [hds]
  | up =>
      exact ⟨hpos, ⟨dx, hdx⟩, ⟨dy, hdy⟩⟩

theorem foldl_stepEvent_drag_inv :
    ∀ (evs : List PEvent) (st : EditorState), DragInv st →
      (∀ ev ∈ evs, okEv ev) → DragInv (evs.foldl stepEvent st)
  | [], st, h, _ => h
  | ev :: evs, st, h, hok => by
      rw [List.foldl_cons]
      exact foldl_stepEvent_drag_inv evs _
        (stepEvent_drag_inv h (hok ev (List.mem_cons_self ev evs)))
        (fun e he => hok e (List.mem_cons_of_mem _ he))

theorem initialState_drag_inv : DragInv initialState :=
  ⟨⟨⟨50, rfl, by norm_num, by norm_num⟩, ⟨15, rfl, by norm_num, by norm_num⟩⟩,
   ⟨0, rfl⟩, ⟨0, rfl⟩⟩

/-- The drag scenario from the specification: anchor `(50,15)`, container
`400x800`, pointer-down at `(200,680)`, pointer-move to `(250,680)`. -/
def dragExample : List PEvent :=
  [.down 200 680 400 800 false, .move true 400 800 250 680]

/-- C3: while dragging, every pointer-move recomputes the anchor as
`pointer - dragStart`, converts it via `x% = px/w*100`,
`y% = 100 - py/h*100`, and clamps both axes into `[10, 90]`; on the
example the x-anchor moves from 50 to 62.5 (up by exactly 12.5) with y
unchanged at 15; and with positive container dimensions no event sequence
ever takes the anchor outside `[10, 90]` on either axis. -/
theorem drag_convert_clamp :
    (∀ (st : EditorState) (w h cx cy dx dy : ℚ),
        st.isDragging = true → 0 < w → 0 < h →
        st.dragStart = ⟨.num dx, .num dy⟩ →
        handleMouseMove st true w h cx cy =
          { st with subtitlePosition :=
              ⟨.num (max 10 (min 90 ((cx - dx) / w * 100))),
               .num (max 10 (min 90 (100 - (cy - dy) / h * 100)))⟩ }) ∧
    ((runEvents dragExample).subtitlePosition.x = .num (50 + 25 / 2) ∧
     (runEvents dragExample).subtitlePosition.y = .num 15 ∧
     initialState.subtitlePosition.x = .num 50) ∧
    (∀ evs : List PEvent, (∀ ev ∈ evs, okEv ev) →
        InRangePos (runEvents evs).subtitlePosition) := by
  refine ⟨?_, ?_, ?_⟩
  · intro st w h cx cy dx dy hd hw hh hds
    exact handleMouseMove_drag_formula st w h cx cy dx dy hd hw.ne' hh.ne' hds
  · have h100 : (100 : ℚ) ≠ 0 := by norm_num
    have hdown : stepEvent initialState (.down 200 680 400 800 false) =
        ⟨⟨.num 50, .num 15⟩, ⟨.num 0, .num 0⟩, true, false, ⟨.num 300, .num 60⟩⟩ := by
      show handleSubtitleMouseDown initialState 200 680 400 800 false = _
      unfold handleSubtitleMouseDown initialState
      dsimp only
      simp only [jsSub_num]
      rw [jsDiv_num 50 h100, jsDiv_num (100 - 15) h100]
      simp only [jsMul_num, jsSub_num]
      norm_num
    have hmove : stepEvent
        (⟨⟨.num 50, .num 15⟩, ⟨.num 0, .num 0⟩, true, false,
          ⟨.num 300, .num 60⟩⟩ : EditorState) (.move true 400 800 250 680) =
        { (⟨⟨.num 50, .num 15⟩, ⟨.num 0, .num 0⟩, true, false,
            ⟨.num 300, .num 60⟩⟩ : EditorState) with subtitlePosition :=
            ⟨.num (max 10 (min 90 ((250 - 0) / 400 * 100))),
             .num (max 10 (min 90 (100 - (680 - 0) / 800 * 100)))⟩ } :=
      handleMouseMove_drag_formula _ 400 800 250 680 0 0 rfl
        (by norm_num) (by norm_num) rfl
    rw [show runEvents dragExample =
        stepEvent (stepEvent initialState (.down 200 680 400 800 false))
          (.move true 400 800 250 680) from rfl, hdown, hmove]
    refine ⟨?_, ?_, rfl⟩ <;>
      · dsimp only
        norm_num [min_def, max_def]
  · intro evs hok
    exact (foldl_stepEvent_drag_inv evs initialState initialState_drag_inv hok).1

/-- Witness for C3: the per-move formula at a concrete dragging state, and
the clamp invariant after a single pointer-up. -/
theorem drag_convert_clamp_witness :
    handleMouseMove
        (⟨⟨.num 50, .num 15⟩, ⟨.num 0, .num 0⟩, true, false,
          ⟨.num 300, .num 60⟩⟩ : EditorState) true 400 800 250 680 =
      { (⟨⟨.num 50, .num 15⟩, ⟨.num 0, .num 0⟩, true, false,
          ⟨.num 300, .num 60⟩⟩ : EditorState) with subtitlePosition :=
          ⟨.num (max 10 (min 90 ((250 - 0) / 400 * 100))),
           .num (max 10 (min 90 (100 - (680 - 0) / 800 * 100)))⟩ } ∧
    InRangePos (runEvents [PEvent.up]).subtitlePosition :=
  ⟨drag_convert_clamp.1 _ 400 800 250 680 0 0 rfl (by norm_num) (by norm_num) rfl,
   drag_convert_clamp.2.2 [PEvent.up]
     (fun ev hev => by rw [List.mem_singleton.mp hev]; trivial)⟩

/-! ### C7 — resize is unimplemented -/

/-- C7 (code bug): `handleMouseMove` contains no resize branch — no pointer
event ever modifies `subtitleSize`, which stays at its initial `300 x 60`
for every event sequence.  Dimensions therefore never degenerate, but no
resize adjustment ever happens either, contradicting the specified
Resizing behaviour. -/
theorem subtitleSize_never_adjusted :
    (∀ (st : EditorState) (ev : PEvent),
        (stepEvent st ev).subtitleSize = st.subtitleSize) ∧
    (∀ evs : List PEvent, (runEvents evs).subtitleSize = ⟨.num 300, .num 60⟩) := by
  have h1 : ∀ (st : EditorState) (ev : PEvent),
      (stepEvent st ev).subtitleSize = st.subtitleSize := by
    intro st ev
    cases ev with
    | down cx cy pw ph onH => cases onH <;> rfl
    | move ce w h cx cy =>
        show (handleMouseMove st ce w h cx cy).subtitleSize = st.subtitleSize
        unfold handleMouseMove
        split
        · rfl
        · split
          · rfl
          · split
            · rfl
            · rfl
    | up => rfl
  refine ⟨h1, ?_⟩
  have h2 : ∀ (evs : List PEvent) (st : EditorState),
      (evs.foldl stepEvent st).subtitleSize = st.subtitleSize := by
    intro evs
    induction evs with
    | nil => intro st; rfl
    | cons ev evs ih =>
        intro st
        rw [List.foldl_cons, ih (stepEvent st ev), h1 st ev]
  intro evs
  rw [show runEvents evs = evs.foldl stepEvent initialState from rfl, h2]
  rfl

/-! ### C8 — degenerate container -/

/-- C8 (code bug): the position computation does not guard the division by
a zero-sized container: after a pointer-down at the origin (capturing
`dragStart = (-200, -680)`), a pointer-move with a `0 x 0` container and the
pointer at `(-200, -680)` computes `0/0` and stores `NaN` in both anchor
coordinates — the anchor is changed and becomes non-numeric. -/
theorem degenerate_container_nan :
    (runEvents [.down 0 0 400 800 false, .move true 0 0 (-200) (-680)]).subtitlePosition =
      ⟨.nan, .nan⟩ ∧
    initialState.subtitlePosition = ⟨.num 50, .num 15⟩ := by
  refine ⟨?_, rfl⟩
  have h100 : (100 : ℚ) ≠ 0 := by norm_num
  have hdown : stepEvent initialState (.down 0 0 400 800 false) =
      ⟨⟨.num 50, .num 15⟩, ⟨.num (-200), .num (-680)⟩, true, false,
        ⟨.num 300, .num 60⟩⟩ := by
    show handleSubtitleMouseDown initialState 0 0 400 800 false = _
    unfold handleSubtitleMouseDown initialState
    dsimp only
    simp only [jsSub_num]
    rw [jsDiv_num 50 h100, jsDiv_num (100 - 15) h100]
    simp only [jsMul_num, jsSub_num]
    norm_num
  have hmove : stepEvent
      (⟨⟨.num 50, .num 15⟩, ⟨.num (-200), .num (-680)⟩, true, false,
        ⟨.num 300, .num 60⟩⟩ : EditorState) (.move true 0 0 (-200) (-680)) =
      ⟨⟨.nan, .nan⟩, ⟨.num (-200), .num (-680)⟩, true, false,
        ⟨.num 300, .num 60⟩⟩ := by
    show handleMouseMove _ true 0 0 (-200) (-680) = _
    unfold handleMouseMove
    dsimp only
    simp only [jsSub_num]
    rw [show ((-200 : ℚ) - (-200)) = 0 by norm_num,
      show ((-680 : ℚ) - (-680)) = 0 by norm_num]
    simp only [jsDiv_zero_zero, jsMul_nan_left, jsMin_nan_right, jsMax_nan_right,
      jsSub_nan_right]
    simp
  rw [show runEvents [.down 0 0 400 800 false, .move true 0 0 (-200) (-680)] =
      stepEvent (stepEvent initialState (.down 0 0 400 800 false))
        (.move true 0 0 (-200) (-680)) from rfl, hdown, hmove]

/-! ### C9 — session exclusivity -/

/-- C9 counterexample: a pointer-down on a resize handle followed by a
pointer-down on the overlay body, with no intervening pointer-up, leaves
the state with `isDragging` and `isResizing` simultaneously true — the
second pointer-down was processed, not ignored. -/
theorem pointer_sessions_not_exclusive :
    (runEvents [.down 0 0 400 800 true, .down 5 5 400 800 false]).isDragging = true ∧
    (runEvents [.down 0 0 400 800 true, .down 5 5 400 800 false]).isResizing = true :=
  ⟨rfl, rfl⟩

/-- C9 (amended): pointer sessions are neither exclusive nor non-reentrant:
every pointer-down is processed regardless of the current session — it sets
the mode flag for its target, leaves the other flag untouched, and
recaptures `dragStart`; a handle-down followed by a body-down with no
pointer-up in between makes both Dragging and Resizing active at once;
pointer-up unconditionally clears both modes. -/
theorem pointer_down_reenters_session :
    (∀ (st : EditorState) (cx cy pw ph : ℚ),
        (handleSubtitleMouseDown st cx cy pw ph false).isDragging = true ∧
        (handleSubtitleMouseDown st cx cy pw ph false).isResizing = st.isResizing ∧
        (handleSubtitleMouseDown st cx cy pw ph true).isResizing = true ∧
        (handleSubtitleMouseDown st cx cy pw ph true).isDragging = st.isDragging ∧
        ∀ onH : Bool, (handleSubtitleMouseDown st cx cy pw ph onH).dragStart =
          ⟨jsSub (.num cx) (jsMul (jsDiv st.subtitlePosition.x (.num 100)) (.num pw)),
           jsSub (.num cy)
             (jsMul (jsDiv (jsSub (.num 100) st.subtitlePosition.y) (.num 100)) (.num ph))⟩) ∧
    (∀ st : EditorState,
        (handleMouseUp st).isDragging = false ∧ (handleMouseUp st).isResizing = false) ∧
    ((runEvents [.down 0 0 400 800 true, .down 5 5 400 800 false]).isDragging = true ∧
     (runEvents [.down 0 0 400 800 true, .down 5 5 400 800 false]).isResizing = true) := by
  refine ⟨?_, fun st => ⟨rfl, rfl⟩, rfl, rfl⟩
  intro st cx cy pw ph
  exact ⟨rfl, rfl, rfl, rfl, fun onH => by cases onH <;> rfl⟩
